import Mathlib

/-!
A shallow embedding of the godi dependency-injection container
(`container.go`, `resolver.go`) and proofs about its behaviour.

Modelling decisions, all driven by the Go source:
* Go `any` values flowing through the container become `GoVal`, a small
  universe of runtime-tagged values; the Go two-result type assertion
  `v, ok := t.(T)` becomes `typeAssert`.
* A caller-supplied factory (Go `BinderFunc`, an arbitrary closure that may
  mutate captured state and call the resolver it is handed) becomes
  `BinderProg σ`: a sequential program over an external state `σ` that
  interleaves pure state steps with resolver calls.  `BinderProg.run`
  executes it against a resolution function.
* The container (`defaultContainer`) becomes `Container σ`: the `locked`
  flag and an association list for the `services` map.  `Bind` stores the
  factory verbatim; `BindSingleton` stores the memoizing wrapper it builds
  (Go: a closure over a `sync.Once` and a result cell).  The wrapper's
  mutable cell lives in the resolution-time state `RState σ`, keyed by the
  service name — names are unique map keys and bindings are never replaced,
  so the keying is faithful.
* The resolution function returned by `Resolver()` recurses through
  factories; a `fuel` parameter bounds the call-stack depth, and exhaustion
  is returned as `none` (the Go program crashes with a stack overflow on a
  dependency cycle).  Panics of the `Must` variants are modelled as the
  `Except.error` side of their results.
-/

deriving instance DecidableEq for Except

namespace Godi

/-- Runtime values held by the container (Go `any`). `vNil` is the nil
interface value. -/
inductive GoVal where
  | vNil
  | vInt (i : Int)
  | vStr (s : String)
  | vBool (b : Bool)
  deriving DecidableEq

/-- The runtime types a typed retrieval may request (the `T` of
`Resolve[T]`). -/
inductive GoTy where
  | tInt
  | tStr
  | tBool
  deriving DecidableEq

/-- The zero value of a Go type (`var res T`). -/
def zeroVal : GoTy → GoVal
  | .tInt => .vInt 0
  | .tStr => .vStr ""
  | .tBool => .vBool false

/-- The dynamic type of a value; the nil interface has none. -/
def typeOf : GoVal → Option GoTy
  | .vNil => none
  | .vInt _ => some .tInt
  | .vStr _ => some .tStr
  | .vBool _ => some .tBool

/-- The Go two-result type assertion `v, ok := t.(T)`: on success the value
itself with `true`, on failure the zero value of `T` with `false`. -/
def typeAssert (ty : GoTy) (t : GoVal) : GoVal × Bool :=
  match ty, t with
  | .tInt, .vInt i => (.vInt i, true)
  | .tStr, .vStr s => (.vStr s, true)
  | .tBool, .vBool b => (.vBool b, true)
  | .tInt, _ => (zeroVal .tInt, false)
  | .tStr, _ => (zeroVal .tStr, false)
  | .tBool, _ => (zeroVal .tBool, false)

/-- The errors the library produces (`errors.New` in the source; the exact
strings are reproduced by `Err.message`). -/
inductive Err where
  | locked
  | alreadyBound (name : String)
  | notFound (name : String)
  | typeMismatch (name : String)
  deriving DecidableEq

/-- The exact error strings from the source. -/
def Err.message : Err → String
  | .locked => "service container locked. no more services can be bound"
  | .alreadyBound n => "service with name " ++ n ++ " already bound"
  | .notFound n => n ++ " service not found in container"
  | .typeMismatch n => "Unable to convert " ++ n ++ " to the requested type"

/-- Resolution-time mutable state: `ext` is the external state captured by
caller factories (the closure variables of the Go program), `cache` holds
the per-singleton result cells (Go: the `result` variable captured by the
wrapper built in `BindSingleton`, keyed here by the service name). -/
structure RState (σ : Type) where
  ext : σ
  cache : List (String × GoVal)
  deriving DecidableEq

variable {σ : Type}

/-- The type of the resolution function (Go `ResolverFunc`), threading the
resolution-time state; `none` is a crash (stack overflow). -/
def ResolverFunc (σ : Type) :=
  String → RState σ → Option (Except Err GoVal × RState σ)

/-- A caller-supplied factory (Go `BinderFunc`): a sequential program that
may update the external state and call the resolution function it is
handed.  `pure f` performs a state step and returns a value; `resolveThen
pre k` performs a state step choosing a name, resolves it, and continues
with the result. -/
inductive BinderProg (σ : Type) where
  | pure (f : σ → GoVal × σ)
  | resolveThen (pre : σ → σ × String) (k : Except Err GoVal → BinderProg σ)

/-- Execute a factory against a resolution function (the Go call
`binder(resolver)`).  A crash of a nested resolution propagates. -/
def BinderProg.run : BinderProg σ → ResolverFunc σ → RState σ → Option (GoVal × RState σ)
  | .pure f, _, st => some ((f st.ext).1, { st with ext := (f st.ext).2 })
  | .resolveThen pre k, r, st =>
    match r (pre st.ext).2 { st with ext := (pre st.ext).1 } with
    | none => none
    | some (res, st') => (k res).run r st'

/-- A stored service: the factory verbatim (stored by `Bind`) or the
memoizing singleton wrapper built by `BindSingleton`. -/
inductive Entry (σ : Type) where
  | instanced (b : BinderProg σ)
  | singleton (b : BinderProg σ)

/-- The container (Go `defaultContainer`): the lock flag and the
name-to-service map, as an association list with unique keys. -/
structure Container (σ : Type) where
  locked : Bool
  services : List (String × Entry σ)

/-- Go `NewContainer`: unlocked, no services. -/
def NewContainer : Container σ :=
  { locked := false, services := [] }

/-- Lookup in the services map (Go `d.services[name]`). -/
def findService : List (String × Entry σ) → String → Option (Entry σ)
  | [], _ => none
  | (k, e) :: rest, n => if k = n then some e else findService rest n

/-- Lookup of a singleton's cached result cell. -/
def findCache : List (String × GoVal) → String → Option GoVal
  | [], _ => none
  | (k, v) :: rest, n => if k = n then some v else findCache rest n

/-- The insertion core of Go `Bind`: reject when locked, reject when the
name is present, otherwise insert. -/
def Container.bindEntry (c : Container σ) (name : String) (e : Entry σ) :
    Except Err (Container σ) :=
  if c.locked then .error .locked
  else if (findService c.services name).isSome then .error (.alreadyBound name)
  else .ok { c with services := (name, e) :: c.services }

/-- Go `Bind`: store the factory verbatim. -/
def Container.Bind (c : Container σ) (name : String) (b : BinderProg σ) :
    Except Err (Container σ) :=
  c.bindEntry name (.instanced b)

/-- Go `BindSingleton`: wrap the factory in the memoizing adapter, then
bind the wrapper through the same insertion core. -/
def Container.BindSingleton (c : Container σ) (name : String) (b : BinderProg σ) :
    Except Err (Container σ) :=
  c.bindEntry name (.singleton b)

/-- Go `MustBind`: like `Bind` but panics with `err.Error()` on failure
(the panic is the `Except.error` side, carrying the panic string). -/
def Container.MustBind (c : Container σ) (name : String) (b : BinderProg σ) :
    Except String (Container σ) :=
  match c.Bind name b with
  | .error e => .error e.message
  | .ok c' => .ok c'

/-- Go `MustBindSingleton`: like `BindSingleton` but panics on failure. -/
def Container.MustBindSingleton (c : Container σ) (name : String) (b : BinderProg σ) :
    Except String (Container σ) :=
  match c.BindSingleton name b with
  | .error e => .error e.message
  | .ok c' => .ok c'

/-- Go `Lock`: set the flag. -/
def Container.Lock (c : Container σ) : Container σ :=
  { c with locked := true }

/-- The resolution function produced by Go `Resolver()`.  Looks the name up;
a missing name is an error value.  Invoking the stored function needs a
stack frame: `fuel` bounds the nesting depth of such invocations, and at
`0` the invocation is a crash (`none`), modelling the stack overflow the Go
program runs into on a dependency cycle.  An instanced entry runs the
factory, handing it a freshly derived resolution function; a singleton
entry first consults its cell (`sync.Once` plus `result`), running the
factory only when the cell is empty and filling it with the produced
value. -/
def Container.Resolver (c : Container σ) : Nat → String → RState σ →
    Option (Except Err GoVal × RState σ)
  | 0, name, st =>
    match findService c.services name with
    | none => some (.error (.notFound name), st)
    | some _ => none
  | f + 1, name, st =>
    match findService c.services name with
    | none => some (.error (.notFound name), st)
    | some (.instanced b) =>
      match b.run (c.Resolver f) st with
      | none => none
      | some (v, st') => some (.ok v, st')
    | some (.singleton b) =>
      match findCache st.cache name with
      | some v => some (.ok v, st)
      | none =>
        match b.run (c.Resolver f) st with
        | none => none
        | some (v, st') => some (.ok v, { st' with cache := (name, v) :: st'.cache })

/-- Go `Resolve[T]`: call the resolution function; propagate its error with
a zero-valued result; otherwise type-assert the value, reporting a
conversion error on failure.  The result pairs the produced `T` value with
the returned error. -/
def Resolve (ty : GoTy) (name : String) (r : ResolverFunc σ) (st : RState σ) :
    Option ((GoVal × Option Err) × RState σ) :=
  match r name st with
  | none => none
  | some (.error err, st') => some ((zeroVal ty, some err), st')
  | some (.ok t, st') =>
    match typeAssert ty t with
    | (v, false) => some ((v, some (.typeMismatch name)), st')
    | (v, true) => some ((v, none), st')

/-- Go `MustResolve[T]`: like `Resolve[T]` but panics with the error (the
`Except.error` side) instead of returning it. -/
def MustResolve (ty : GoTy) (name : String) (r : ResolverFunc σ) (st : RState σ) :
    Option (Except Err GoVal × RState σ) :=
  match Resolve ty name r st with
  | none => none
  | some ((v, none), st') => some (.ok v, st')
  | some ((_, some e), st') => some (.error e, st')

/-- A counter factory over `σ := Int`: increments the external state and
returns the new count (the instanced/singleton counter of the spec's
examples). -/
def counterBinder : BinderProg Int :=
  .pure (fun k => (.vInt (k + 1), k + 1))

/-- Whether an `Except` is on its success side (Go: `err == nil`). -/
def isOkE {ε α : Type} : Except ε α → Bool
  | .ok _ => true
  | .error _ => false

/-- A factory that resolves the sibling service `"dep"` and returns the
resolved value (nil when the sibling resolution fails). -/
def sibBinder : BinderProg Int :=
  .resolveThen (fun s => (s, "dep"))
    (fun res => .pure (fun s => (match res with | .ok v => v | .error _ => .vNil, s)))

/-- A factory ignoring state and resolver, always producing `7`. -/
def sevenBinder : BinderProg Int :=
  .pure (fun s => (.vInt 7, s))

/-- A container holding the counter as an instanced binding. -/
def counterContainer : Container Int :=
  { locked := false, services := [("ctr", .instanced counterBinder)] }

/-- A container holding the counter as a singleton binding. -/
def singletonCounter : Container Int :=
  { locked := false, services := [("ctr", .singleton counterBinder)] }

/-- A container where service `"a"` recursively resolves its sibling
`"dep"`. -/
def sibContainer : Container Int :=
  { locked := false, services := [("a", .instanced sibBinder), ("dep", .instanced sevenBinder)] }

/-- An empty, already locked container. -/
def lockedContainer : Container Int :=
  { locked := true, services := [] }

/-- A resolution function that always succeeds with the integer `5`. -/
def constResolver : ResolverFunc Int :=
  fun _ st => some (.ok (.vInt 5), st)

/-- A resolution function that always fails with `NotFound`. -/
def errResolver : ResolverFunc Int :=
  fun n st => some (.error (.notFound n), st)

/-- An unbound name resolves to the `NotFound` error value at every fuel,
leaving the state untouched. -/
theorem resolver_findService_none (c : Container σ) {n : String}
    (hn : findService c.services n = none) (f : Nat) (st : RState σ) :
    c.Resolver f n st = some (.error (.notFound n), st) := by
  cases f <;> simp [Container.Resolver, hn]

/-- A bound name at fuel zero crashes: invoking the stored function needs a
stack frame. -/
theorem resolver_zero_found (c : Container σ) {n : String} {e : Entry σ}
    (hn : findService c.services n = some e) (st : RState σ) :
    c.Resolver 0 n st = none := by
  simp [Container.Resolver, hn]

/-- Resolution of an instanced entry runs the stored factory, handing it
the resolution function derived from the container at the remaining
fuel. -/
theorem resolver_succ_instanced (c : Container σ) {n : String} {b : BinderProg σ}
    (hn : findService c.services n = some (.instanced b)) (f : Nat) (st : RState σ) :
    c.Resolver (f + 1) n st =
      Option.map (fun p => (Except.ok p.1, p.2)) (b.run (c.Resolver f) st) := by
  simp only [Container.Resolver, hn]
  cases hrun : b.run (c.Resolver f) st with
  | none => rfl
  | some p => cases p; rfl

/-- Resolution of a singleton entry whose cell is already filled returns
the cached value and does not touch the state. -/
theorem resolver_succ_singleton_cached (c : Container σ) {n : String} {b : BinderProg σ}
    {v : GoVal} (hn : findService c.services n = some (.singleton b)) (f : Nat)
    {st : RState σ} (hc : findCache st.cache n = some v) :
    c.Resolver (f + 1) n st = some (.ok v, st) := by
  simp only [Container.Resolver, hn, hc]

/-- Resolution of a singleton entry whose cell is still empty runs the
wrapped factory and fills the cell with the produced value. -/
theorem resolver_succ_singleton_new (c : Container σ) {n : String} {b : BinderProg σ}
    (hn : findService c.services n = some (.singleton b)) (f : Nat)
    {st : RState σ} (hc : findCache st.cache n = none) :
    c.Resolver (f + 1) n st =
      Option.map (fun p => (Except.ok p.1, { p.2 with cache := (n, p.1) :: p.2.cache }))
        (b.run (c.Resolver f) st) := by
  simp only [Container.Resolver, hn, hc]
  cases hrun : b.run (c.Resolver f) st with
  | none => rfl
  | some p => cases p; rfl

/-- Running a factory is monotone in its resolution function: a resolver
that agrees with another wherever the latter completes yields the same
run. -/
theorem BinderProg.run_mono {r1 r2 : ResolverFunc σ}
    (h : ∀ m st out, r1 m st = some out → r2 m st = some out) :
    ∀ (b : BinderProg σ) (st : RState σ) (out : GoVal × RState σ),
      b.run r1 st = some out → b.run r2 st = some out := by
  intro b
  induction b with
  | pure f =>
    intro st out hout
    exact hout
  | resolveThen pre k ih =>
    intro st out hout
    simp only [BinderProg.run] at hout ⊢
    cases h1 : r1 (pre st.ext).2 { st with ext := (pre st.ext).1 } with
    | none => rw [h1] at hout; exact absurd hout (by simp)
    | some p =>
      obtain ⟨res, st'⟩ := p
      rw [h1] at hout
      rw [h _ _ _ h1]
      exact ih res st' out hout

/-- Fuel monotonicity: whenever resolution completes (does not crash) at
some fuel, any larger fuel produces the identical result.  This is what
makes the freshly derived resolution function handed to a factory
interchangeable with a top-level one. -/
theorem Container.resolver_mono (c : Container σ) :
    ∀ f g : Nat, f ≤ g → ∀ (m : String) (st : RState σ) (out : Except Err GoVal × RState σ),
      c.Resolver f m st = some out → c.Resolver g m st = some out := by
  intro f
  induction f with
  | zero =>
    intro g _ m st out h
    cases hm : findService c.services m with
    | none =>
      rw [resolver_findService_none c hm 0 st] at h
      rw [resolver_findService_none c hm g st]
      exact h
    | some e =>
      rw [resolver_zero_found c hm st] at h
      exact absurd h (by simp)
  | succ f ih =>
    intro g hg m st out h
    cases g with
    | zero => exact absurd hg (by omega)
    | succ g' =>
      have hfg' : f ≤ g' := by omega
      have hmono : ∀ (m : String) (st : RState σ) (out : Except Err GoVal × RState σ),
          c.Resolver f m st = some out → c.Resolver g' m st = some out :=
        fun m st out hh => ih g' hfg' m st out hh
      cases hm : findService c.services m with
      | none =>
        rw [resolver_findService_none c hm (f + 1) st] at h
        rw [resolver_findService_none c hm (g' + 1) st]
        exact h
      | some e =>
        cases e with
        | instanced b =>
          rw [resolver_succ_instanced c hm f st] at h
          rw [resolver_succ_instanced c hm g' st]
          cases hrun : b.run (c.Resolver f) st with
          | none => rw [hrun] at h; exact absurd h (by simp)
          | some p =>
            rw [hrun] at h
            rw [BinderProg.run_mono hmono b st p hrun]
            exact h
        | singleton b =>
          cases hc : findCache st.cache m with
          | some v =>
            rw [resolver_succ_singleton_cached c hm f hc] at h
            rw [resolver_succ_singleton_cached c hm g' hc]
            exact h
          | none =>
            rw [resolver_succ_singleton_new c hm f hc] at h
            rw [resolver_succ_singleton_new c hm g' hc]
            cases hrun : b.run (c.Resolver f) st with
            | none => rw [hrun] at h; exact absurd h (by simp)
            | some p =>
              rw [hrun] at h
              rw [BinderProg.run_mono hmono b st p hrun]
              exact h

/-- A successful insertion through the core of `Bind` happened on an
unlocked container under an absent name, and produced exactly the old
container with the new service prepended. -/
theorem Container.bindEntry_ok (c : Container σ) (n : String) (e : Entry σ)
    (c' : Container σ) (h : c.bindEntry n e = .ok c') :
    c.locked = false ∧ findService c.services n = none ∧
      c' = { c with services := (n, e) :: c.services } := by
  unfold Container.bindEntry at h
  by_cases hl : c.locked
  · simp [hl] at h
  · by_cases hs : (findService c.services n).isSome
    · simp [hl, hs] at h
    · simp [hl, hs] at h
      have hl' : c.locked = false := by simp [hl]
      refine ⟨hl', ?_, ?_⟩
      · cases hfind : findService c.services n with
        | none => rfl
        | some e => rw [hfind] at hs; simp at hs
      · rw [← h, hl']

/-- A type assertion against the value's own dynamic type succeeds and
returns the value itself. -/
theorem typeAssert_of_typeOf_eq {ty : GoTy} {t : GoVal} (h : typeOf t = some ty) :
    typeAssert ty t = (t, true) := by
  cases t <;> cases ty <;> simp_all [typeOf, typeAssert]

/-- A type assertion against a type other than the value's dynamic type
fails and returns the requested type's zero value. -/
theorem typeAssert_of_typeOf_ne {ty : GoTy} {t : GoVal} (h : typeOf t ≠ some ty) :
    typeAssert ty t = (zeroVal ty, false) := by
  cases t <;> cases ty <;> simp_all [typeOf, typeAssert]

/-- C1: for a name not bound in an unlocked container, `Bind` succeeds and
inserts the factory; afterwards every resolution of that name through the
resolution function invokes the factory anew (it runs the stored factory on
the current state on each call), and on the concrete instanced counter two
sequential resolutions re-execute the factory and yield the different
values 1 and 2. -/
theorem bind_unbound_then_instanced_semantics (c : Container σ) (n : String)
    (b : BinderProg σ) (f : Nat) (st : RState σ)
    (hl : c.locked = false) (hn : findService c.services n = none) :
    c.Bind n b = .ok { c with services := (n, .instanced b) :: c.services } ∧
    Container.Resolver { c with services := (n, .instanced b) :: c.services } (f + 1) n st =
      Option.map (fun p => (Except.ok p.1, p.2))
        (b.run (Container.Resolver { c with services := (n, .instanced b) :: c.services } f) st) ∧
    counterContainer.Resolver 1 "ctr" ⟨0, []⟩ = some (.ok (.vInt 1), ⟨1, []⟩) ∧
    counterContainer.Resolver 1 "ctr" ⟨1, []⟩ = some (.ok (.vInt 2), ⟨2, []⟩) ∧
    counterContainer.Resolver 1 "ctr" ⟨0, []⟩ ≠ counterContainer.Resolver 1 "ctr" ⟨1, []⟩ := by
  refine ⟨?_, ?_, by rfl, by rfl, by decide⟩
  · simp [Container.Bind, Container.bindEntry, hl, hn]
  · exact resolver_succ_instanced _ (by simp [findService]) f st

/-- C1 witness: binding the counter into the fresh container succeeds. -/
theorem bind_unbound_then_instanced_semantics_witness :
    (NewContainer : Container Int).locked = false ∧
    findService (NewContainer : Container Int).services "ctr" = none ∧
    (NewContainer : Container Int).Bind "ctr" counterBinder =
      .ok { locked := false, services := [("ctr", .instanced counterBinder)] } :=
  ⟨rfl, rfl,
    (bind_unbound_then_instanced_semantics NewContainer "ctr" counterBinder 0 ⟨0, []⟩ rfl rfl).1⟩

/-- C2: resolving a singleton whose cell is empty runs the wrapped factory
once and fills the cell with the produced value; the cell then holds that
value, and every resolution finding a filled cell returns the cached value
with the state completely unchanged — the factory body is not re-executed.
On the concrete singleton counter, the first resolution produces 1 with the
underlying counter incremented once, and the second resolution returns the
identical value with the counter still at 1. -/
theorem bindSingleton_memoizes_once (c : Container σ) (n : String) (b : BinderProg σ)
    (f g : Nat) (st st' st2 : RState σ) (v w : GoVal)
    (hn : findService c.services n = some (.singleton b))
    (hc : findCache st.cache n = none)
    (hrun : b.run (c.Resolver f) st = some (v, st'))
    (hc2 : findCache st2.cache n = some w) :
    c.Resolver (f + 1) n st = some (.ok v, { st' with cache := (n, v) :: st'.cache }) ∧
    findCache ((n, v) :: st'.cache) n = some v ∧
    c.Resolver (g + 1) n st2 = some (.ok w, st2) ∧
    singletonCounter.Resolver 1 "ctr" ⟨0, []⟩ =
      some (.ok (.vInt 1), ⟨1, [("ctr", .vInt 1)]⟩) ∧
    singletonCounter.Resolver 1 "ctr" ⟨1, [("ctr", .vInt 1)]⟩ =
      some (.ok (.vInt 1), ⟨1, [("ctr", .vInt 1)]⟩) := by
  refine ⟨?_, by simp [findCache], resolver_succ_singleton_cached c hn g hc2, by rfl, by rfl⟩
  rw [resolver_succ_singleton_new c hn f hc, hrun]
  rfl

/-- C2 witness: the singleton counter resolved twice from a fresh state
returns 1 both times, with the counter incremented exactly once. -/
theorem bindSingleton_memoizes_once_witness :
    findService singletonCounter.services "ctr" = some (.singleton counterBinder) ∧
    counterBinder.run (singletonCounter.Resolver 0) ⟨0, []⟩ = some (.vInt 1, ⟨1, []⟩) ∧
    singletonCounter.Resolver 1 "ctr" ⟨0, []⟩ =
      some (.ok (.vInt 1), ⟨1, [("ctr", .vInt 1)]⟩) ∧
    singletonCounter.Resolver 1 "ctr" ⟨1, [("ctr", .vInt 1)]⟩ =
      some (.ok (.vInt 1), ⟨1, [("ctr", .vInt 1)]⟩) := by
  have h := bindSingleton_memoizes_once singletonCounter "ctr" counterBinder 0 0
    ⟨0, []⟩ ⟨1, []⟩ ⟨1, [("ctr", .vInt 1)]⟩ (.vInt 1) (.vInt 1) rfl rfl rfl rfl
  exact ⟨rfl, rfl, h.1, h.2.2.1⟩

/-- C3: a second bind (instanced or singleton) of an already bound name in
an unlocked container is rejected with the already-bound error; the result
carries no new container, so the original binding table — and hence the
factory subsequent resolutions invoke — is unchanged. -/
theorem rebind_already_bound_rejected (c : Container σ) (n : String) (e : Entry σ)
    (f2 : BinderProg σ) (hl : c.locked = false)
    (hn : findService c.services n = some e) :
    c.Bind n f2 = .error (.alreadyBound n) ∧
    c.BindSingleton n f2 = .error (.alreadyBound n) := by
  constructor <;>
    simp [Container.Bind, Container.BindSingleton, Container.bindEntry, hl, hn]

/-- C3 witness: rebinding `"ctr"` in the counter container is rejected. -/
theorem rebind_already_bound_rejected_witness :
    counterContainer.locked = false ∧
    findService counterContainer.services "ctr" = some (.instanced counterBinder) ∧
    counterContainer.Bind "ctr" sevenBinder = .error (.alreadyBound "ctr") ∧
    counterContainer.BindSingleton "ctr" sevenBinder = .error (.alreadyBound "ctr") := by
  have h := rebind_already_bound_rejected counterContainer "ctr"
    (.instanced counterBinder) sevenBinder rfl rfl
  exact ⟨rfl, rfl, h.1, h.2⟩

/-- C4: on a locked container every `Bind` and every `BindSingleton`, for
every name, is rejected with the locked error, carrying no modified
container. -/
theorem bind_after_lock_rejected (c : Container σ) (n : String) (b : BinderProg σ)
    (hl : c.locked = true) :
    c.Bind n b = .error .locked ∧ c.BindSingleton n b = .error .locked := by
  constructor <;>
    simp [Container.Bind, Container.BindSingleton, Container.bindEntry, hl]

/-- C4 witness: binding into the locked container is rejected. -/
theorem bind_after_lock_rejected_witness :
    lockedContainer.locked = true ∧
    lockedContainer.Bind "x" sevenBinder = .error .locked ∧
    lockedContainer.BindSingleton "x" sevenBinder = .error .locked := by
  have h := bind_after_lock_rejected lockedContainer "x" sevenBinder rfl
  exact ⟨rfl, h.1, h.2⟩

/-- C5: `Lock` sets the flag, changes nothing else (the services are kept,
and singleton cells live in the resolution state, which `Lock` does not
touch), and is idempotent; once the flag is set every bind is rejected, so
the table is never changed while locked; and no successful bind ever
changes the flag, so no operation resets it. -/
theorem lock_monotonic_idempotent_frozen (c c' : Container σ) (n : String)
    (b : BinderProg σ) :
    (c.Lock).locked = true ∧
    (c.Lock).services = c.services ∧
    c.Lock.Lock = c.Lock ∧
    (c.locked = true →
      c.Bind n b = .error .locked ∧ c.BindSingleton n b = .error .locked) ∧
    (c.Bind n b = .ok c' → c'.locked = c.locked) ∧
    (c.BindSingleton n b = .ok c' → c'.locked = c.locked) := by
  refine ⟨rfl, rfl, rfl, ?_, ?_, ?_⟩
  · intro hl
    constructor <;>
      simp [Container.Bind, Container.BindSingleton, Container.bindEntry, hl]
  · intro h
    obtain ⟨-, -, rfl⟩ := Container.bindEntry_ok c n _ c' h
    rfl
  · intro h
    obtain ⟨-, -, rfl⟩ := Container.bindEntry_ok c n _ c' h
    rfl

/-- C5 witness: locking the empty container. -/
theorem lock_monotonic_idempotent_frozen_witness :
    ((NewContainer : Container Int).Lock).locked = true ∧
    ((NewContainer : Container Int).Lock).services = [] ∧
    lockedContainer.Bind "x" sevenBinder = .error .locked := by
  have h := lock_monotonic_idempotent_frozen (NewContainer : Container Int)
    NewContainer "x" sevenBinder
  have h2 := lock_monotonic_idempotent_frozen lockedContainer lockedContainer "x" sevenBinder
  exact ⟨h.1, h.2.1, (h2.2.2.2.1 rfl).1⟩

/-- C6: resolving a name with no binding returns the not-found error value
— not a crash — at every fuel, and leaves the state untouched (the
container itself is not part of the result and is unchanged). -/
theorem resolve_unbound_notFound_no_fault (c : Container σ) (n : String) (fuel : Nat)
    (st : RState σ) (hn : findService c.services n = none) :
    c.Resolver fuel n st = some (.error (.notFound n), st) :=
  resolver_findService_none c hn fuel st

/-- C6 witness: resolving `"x"` in the empty container. -/
theorem resolve_unbound_notFound_no_fault_witness :
    findService (NewContainer : Container Int).services "x" = none ∧
    (NewContainer : Container Int).Resolver 3 "x" ⟨0, []⟩ =
      some (.error (.notFound "x"), ⟨0, []⟩) :=
  ⟨rfl, resolve_unbound_notFound_no_fault NewContainer "x" 3 ⟨0, []⟩ rfl⟩

/-- C7: the typed retrieval contract — a failing resolution propagates its
error unchanged with a zero-valued result; a successful resolution whose
value has the requested dynamic type returns the value with no error; a
successful resolution of a value of any other type returns the conversion
error. -/
theorem resolve_typed_contract (ty : GoTy) (n : String) (r : ResolverFunc σ)
    (st st' : RState σ) (e : Err) (t : GoVal) :
    (r n st = some (.error e, st') →
      Resolve ty n r st = some ((zeroVal ty, some e), st')) ∧
    (r n st = some (.ok t, st') → typeOf t = some ty →
      Resolve ty n r st = some ((t, none), st')) ∧
    (r n st = some (.ok t, st') → typeOf t ≠ some ty →
      Resolve ty n r st = some ((zeroVal ty, some (.typeMismatch n)), st')) := by
  refine ⟨?_, ?_, ?_⟩
  · intro h
    simp [Resolve, h]
  · intro h ht
    simp [Resolve, h, typeAssert_of_typeOf_eq ht]
  · intro h ht
    simp [Resolve, h, typeAssert_of_typeOf_ne ht]

/-- C7 witness: the three branches at concrete resolvers — matching type,
mismatched type, failing resolution. -/
theorem resolve_typed_contract_witness :
    constResolver "a" ⟨0, []⟩ = some (.ok (.vInt 5), ⟨0, []⟩) ∧
    Resolve .tInt "a" constResolver ⟨0, []⟩ = some ((.vInt 5, none), ⟨0, []⟩) ∧
    Resolve .tStr "a" constResolver ⟨0, []⟩ =
      some ((zeroVal .tStr, some (.typeMismatch "a")), ⟨0, []⟩) ∧
    Resolve .tInt "a" errResolver ⟨0, []⟩ =
      some ((zeroVal .tInt, some (.notFound "a")), ⟨0, []⟩) := by
  have h1 := resolve_typed_contract (σ := Int) .tInt "a" constResolver ⟨0, []⟩ ⟨0, []⟩
    (.notFound "a") (.vInt 5)
  have h2 := resolve_typed_contract (σ := Int) .tStr "a" constResolver ⟨0, []⟩ ⟨0, []⟩
    (.notFound "a") (.vInt 5)
  have h3 := resolve_typed_contract (σ := Int) .tInt "a" errResolver ⟨0, []⟩ ⟨0, []⟩
    (.notFound "a") (.vInt 5)
  exact ⟨rfl, h1.2.1 rfl rfl, h2.2.2 rfl (by decide), h3.1 rfl⟩

/-- C8: the `Must` variants fault exactly when their error-returning
counterparts fail: success happens on identical conditions with the
identical resulting container or value, and every error of the counterpart
becomes a fault (carrying the error's message for the bind variants and the
error itself for typed retrieval); a crash of the underlying resolution
propagates unchanged. -/
theorem must_variants_fault_iff_error (c c' : Container σ) (n : String)
    (b : BinderProg σ) (ty : GoTy) (r : ResolverFunc σ) (st st' : RState σ)
    (v : GoVal) (e : Err) :
    isOkE (c.MustBind n b) = isOkE (c.Bind n b) ∧
    (c.Bind n b = .ok c' → c.MustBind n b = .ok c') ∧
    (c.Bind n b = .error e → c.MustBind n b = .error e.message) ∧
    isOkE (c.MustBindSingleton n b) = isOkE (c.BindSingleton n b) ∧
    (c.BindSingleton n b = .ok c' → c.MustBindSingleton n b = .ok c') ∧
    (c.BindSingleton n b = .error e → c.MustBindSingleton n b = .error e.message) ∧
    (Resolve ty n r st = some ((v, none), st') →
      MustResolve ty n r st = some (.ok v, st')) ∧
    (Resolve ty n r st = some ((v, some e), st') →
      MustResolve ty n r st = some (.error e, st')) ∧
    (Resolve ty n r st = none → MustResolve ty n r st = none) := by
  refine ⟨?_, ?_, ?_, ?_, ?_, ?_, ?_, ?_, ?_⟩
  · cases hb : c.Bind n b <;> simp [Container.MustBind, hb, isOkE]
  · intro h; simp [Container.MustBind, h]
  · intro h; simp [Container.MustBind, h]
  · cases hb : c.BindSingleton n b <;> simp [Container.MustBindSingleton, hb, isOkE]
  · intro h; simp [Container.MustBindSingleton, h]
  · intro h; simp [Container.MustBindSingleton, h]
  · intro h; simp [MustResolve, h]
  · intro h; simp [MustResolve, h]
  · intro h; simp [MustResolve, h]

/-- C8 witness: `MustBind` succeeds where `Bind` succeeds and faults with
the locked message where `Bind` reports locked. -/
theorem must_variants_fault_iff_error_witness :
    (NewContainer : Container Int).Bind "x" sevenBinder =
      .ok { locked := false, services := [("x", .instanced sevenBinder)] } ∧
    (NewContainer : Container Int).MustBind "x" sevenBinder =
      .ok { locked := false, services := [("x", .instanced sevenBinder)] } ∧
    lockedContainer.MustBind "x" sevenBinder = .error Err.locked.message := by
  have h := must_variants_fault_iff_error (NewContainer : Container Int)
    { locked := false, services := [("x", .instanced sevenBinder)] }
    "x" sevenBinder .tInt constResolver ⟨0, []⟩ ⟨0, []⟩ (.vInt 5) Err.locked
  have h2 := must_variants_fault_iff_error lockedContainer lockedContainer
    "x" sevenBinder .tInt constResolver ⟨0, []⟩ ⟨0, []⟩ (.vInt 5) Err.locked
  exact ⟨rfl, h.2.1 rfl, h2.2.2.1 rfl⟩

/-- C9: every factory invocation receives the resolution function freshly
derived from the container (at one less stack frame of remaining depth) —
a pure function of the container carrying no state of its own — and that
handed-down resolution function agrees with a top-level one wherever it
completes: whatever it resolves, any resolution function derived from the
same container with at least as much remaining depth returns the identical
result. -/
theorem factory_resolver_fresh_and_equivalent (c : Container σ) (n m : String)
    (b : BinderProg σ) (f g : Nat) (st st2 : RState σ)
    (out : Except Err GoVal × RState σ)
    (hn : findService c.services n = some (.instanced b))
    (hfg : f ≤ g)
    (hres : c.Resolver f m st2 = some out) :
    c.Resolver (f + 1) n st =
      Option.map (fun p => (Except.ok p.1, p.2)) (b.run (c.Resolver f) st) ∧
    c.Resolver g m st2 = some out :=
  ⟨resolver_succ_instanced c hn f st, c.resolver_mono f g hfg m st2 out hres⟩

/-- C9 witness: in the sibling container, resolving `"dep"` through the
resolver handed to `"a"`'s factory yields 7, exactly as a top-level
resolution does, and `"a"` itself resolves to its sibling's value. -/
theorem factory_resolver_fresh_and_equivalent_witness :
    findService sibContainer.services "a" = some (.instanced sibBinder) ∧
    sibContainer.Resolver 1 "dep" ⟨0, []⟩ = some (.ok (.vInt 7), ⟨0, []⟩) ∧
    sibContainer.Resolver 2 "dep" ⟨0, []⟩ = some (.ok (.vInt 7), ⟨0, []⟩) ∧
    sibContainer.Resolver 2 "a" ⟨0, []⟩ = some (.ok (.vInt 7), ⟨0, []⟩) := by
  have h := factory_resolver_fresh_and_equivalent sibContainer "a" "dep" sibBinder 1 2
    ⟨0, []⟩ ⟨0, []⟩ (.ok (.vInt 7), ⟨0, []⟩) rfl (by omega) rfl
  exact ⟨rfl, rfl, h.2, by rfl⟩

/-- C10: when typed retrieval finds the name bound but the produced value's
dynamic type is not the requested one, the value component of the result is
the zero value of the requested type, alongside the conversion error. -/
theorem resolve_type_mismatch_returns_zero (ty : GoTy) (n : String)
    (r : ResolverFunc σ) (st st' : RState σ) (t : GoVal)
    (hr : r n st = some (.ok t, st')) (ht : typeOf t ≠ some ty) :
    Resolve ty n r st = some ((zeroVal ty, some (.typeMismatch n)), st') := by
  simp [Resolve, hr, typeAssert_of_typeOf_ne ht]

/-- C10 witness: retrieving the integer 5 as a boolean yields the boolean
zero value `false` with the conversion error. -/
theorem resolve_type_mismatch_returns_zero_witness :
    constResolver "a" ⟨0, []⟩ = some (.ok (.vInt 5), ⟨0, []⟩) ∧
    Resolve .tBool "a" constResolver ⟨0, []⟩ =
      some ((zeroVal .tBool, some (.typeMismatch "a")), ⟨0, []⟩) :=
  ⟨rfl, resolve_type_mismatch_returns_zero .tBool "a" constResolver ⟨0, []⟩ ⟨0, []⟩
    (.vInt 5) rfl (by decide)⟩

end Godi
